import Mathlib

/-! Block throughput cache of go-explorer (`models/db.go`).

A shallow embedding of the functions of `models/db.go` that load the recent
blocks, cache them, broadcast them and aggregate transaction counts, together
with the properties of these functions.

Conventions of the embedding:

* Go's fixed-width integers are `Int`; an `int32` addition is followed by
  `wrapInt32`, the reduction modulo `2^32` into `[-2^31, 2^31)`.
* A Go slice that a function only reads (`len`, indexing) is the `List` of its
  elements. A slice that a function builds with `append` and hands out is a
  `Slice`, which keeps the `nil` slice apart from an empty one.
* A Go `error` is `Option GoError`, `none` being `nil`.
* Calls to `log` are left out: they change nothing the functions return.
-/

namespace Models

/-! ## Integers -/

/-- Reduction of an integer into the range of Go's `int32` (two's complement wrap-around). -/
def wrapInt32 (x : Int) : Int := (x + 2147483648) % 4294967296 - 2147483648

/-- Range of Go's `int32`. -/
def isInt32 (x : Int) : Prop := -2147483648 ≤ x ∧ x < 2147483648

/-- Range of Go's `int64`. -/
def isInt64 (x : Int) : Prop := -9223372036854775808 ≤ x ∧ x < 9223372036854775808

instance (x : Int) : Decidable (isInt32 x) := by unfold isInt32; infer_instance

instance (x : Int) : Decidable (isInt64 x) := by unfold isInt64; infer_instance

/-! ## Records -/

/-- Go `error` value, identified by the text of its `Error()` method. -/
structure GoError where
  msg : String
deriving DecidableEq, Repr

/-- Record `DayBlock` of `db.go`: `Id int64`, `Tx int32`, `Length int64`. -/
structure DayBlock where
  Id : Int
  Tx : Int
  Length : Int
deriving DecidableEq, Repr

/-- The fields of a `DayBlock` lie in the ranges of their Go types. -/
def DayBlock.WellTyped (d : DayBlock) : Prop :=
  isInt64 d.Id ∧ isInt32 d.Tx ∧ isInt64 d.Length

instance (d : DayBlock) : Decidable d.WellTyped := by
  unfold DayBlock.WellTyped
  infer_instance

/-- Record `Block`, declared outside `db.go`; `GetDayblockinfoFromRedis` reads its fields
`Time` (compared with the `int64` bounds) and `Tx` (added to the `int32` accumulator). -/
structure Block where
  Time : Int
  Tx : Int
deriving DecidableEq, Repr

/-- Record `ScanOutBlockTransactionRet`, declared outside `db.go`; the fields are the ones
the composite literals of `db.go` fill, all `int64`. -/
structure ScanOutBlockTransactionRet where
  BlockId : Int
  BlockSizes : Int
  BlockTranscations : Int
deriving DecidableEq, Repr

/-- A Go slice that a function builds and hands out: `nil` is the `nil` slice, `elems l` a
slice that is not `nil` and holds the elements `l`. Both `nil` and `elems []` have length
0; `encoding/json` writes the first as `null` and the second as `[]`. -/
inductive Slice (α : Type) where
  | nil
  | elems (l : List α)
deriving DecidableEq, Repr

/-- The elements of a slice, in order. -/
def Slice.toList {α : Type} : Slice α → List α
  | .nil => []
  | .elems l => l

/-- Go's `append(s, x)`. -/
def Slice.append {α : Type} : Slice α → α → Slice α
  | .nil, x => .elems [x]
  | .elems l, x => .elems (l ++ [x])

/-- The slice that holds the elements `l` after they were appended one by one to a `nil`
slice: it is still `nil` when there was nothing to append. -/
def Slice.build {α : Type} : List α → Slice α
  | [] => .nil
  | x :: xs => .elems (x :: xs)

instance [DecidableEq ε] [DecidableEq α] : DecidableEq (Except ε α)
  | .ok a, .ok b => if h : a = b then isTrue (by rw [h]) else isFalse (fun h' => h (by cases h'; rfl))
  | .error a, .error b =>
    if h : a = b then isTrue (by rw [h]) else isFalse (fun h' => h (by cases h'; rfl))
  | .ok _, .error _ => isFalse (fun h => by cases h)
  | .error _, .ok _ => isFalse (fun h => by cases h)

/-! ## Throughput aggregator -/

/-- Loop of `GetDayblockinfoFromRedis`: `dat` is the accumulator, the list is
`transBlock[i:]`. -/
def GetDayblockinfoFromRedis.loop (t1 t2 : Int) : List Block → Int → Int
  | [], dat => dat
  | b :: rest, dat =>
    if b.Time > t1 ∧ b.Time < t2 then
      GetDayblockinfoFromRedis.loop t1 t2 rest (wrapInt32 (dat + b.Tx))
    else
      GetDayblockinfoFromRedis.loop t1 t2 rest dat

/-- Function `GetDayblockinfoFromRedis(t1, t2, transBlock)`: `err` is declared and never
assigned, so the second component is always `nil`. -/
def GetDayblockinfoFromRedis (t1 t2 : Int) (transBlock : List Block) : Int × Option GoError :=
  (GetDayblockinfoFromRedis.loop t1 t2 transBlock 0, none)

/-- The blocks of `bs` whose `Time` lies strictly between `t1` and `t2`. -/
def inWindow (t1 t2 : Int) (bs : List Block) : List Block :=
  bs.filter (fun b => decide (t1 < b.Time ∧ b.Time < t2))

/-- The exact (unbounded) sum of `Tx` over the blocks strictly inside the window. -/
def windowSum (t1 t2 : Int) (bs : List Block) : Int :=
  ((inWindow t1 t2 bs).map Block.Tx).sum

/-! ## `encoding/json` on `[]DayBlock`

`json.Marshal` and `json.Unmarshal` belong to Go's standard library. They are modelled
on the one type `db.go` uses them at, `[]DayBlock`. The encoder writes exactly the text
Go writes for this type. The decoder reads one character at a time: a lexer state
(`LexState`) recognises punctuation, string literals, integer literals and the words
`null`, `true`, `false`, and hands each token to a parser state (`PState`) that follows
the grammar "array of objects". It accepts white space between tokens, the members of an
object in any order, case-insensitive keys, `null` values, and scalar values under keys
that are not fields of `DayBlock`; it checks the range of every integer. Texts outside
this fragment (escape sequences, fractions and exponents, nested values under an unknown
key) are reported as errors, although `json.Unmarshal` decodes some of them: the model
agrees with Go on the texts `Marshal` writes, and it is used for the round trip only. What
`db.go` does when the decoder fails is stated for an arbitrary decoder
(`GetTraninfoFromRedisWith`). Only the distinction between an error and a result is
modelled, not the text of the error. -/

/-- Decimal digit `d < 10` as a character. -/
def digitChar (d : Nat) : Char := Char.ofNat (48 + d)

/-- Digits of `n`, most significant first, in front of `acc`; `fuel` bounds the number of
digits. -/
def formatNatAux : Nat → Nat → List Char → List Char
  | 0, _, acc => acc
  | fuel + 1, n, acc =>
    if n < 10 then digitChar n :: acc
    else formatNatAux fuel (n / 10) (digitChar (n % 10) :: acc)

/-- Decimal text of a natural number, as `strconv` writes it. -/
def formatNat (n : Nat) : List Char := formatNatAux (n + 1) n []

/-- Decimal text of an integer, as `strconv.AppendInt(_, x, 10)` writes it. -/
def formatInt (x : Int) : List Char :=
  if x < 0 then '-' :: formatNat x.natAbs else formatNat x.natAbs

/-- Text of one `DayBlock`: the fields in declaration order under their Go names. -/
def marshalDayBlock (d : DayBlock) : List Char :=
  ['\x7b', '\"', 'I', 'd', '\"', ':'] ++ formatInt d.Id
    ++ [',', '\"', 'T', 'x', '\"', ':'] ++ formatInt d.Tx
    ++ [',', '\"', 'L', 'e', 'n', 'g', 't', 'h', '\"', ':'] ++ formatInt d.Length ++ ['\x7d']

/-- Texts of the elements, separated by commas. -/
def marshalElems : List DayBlock → List Char
  | [] => []
  | [d] => marshalDayBlock d
  | d :: e :: rest => marshalDayBlock d ++ ',' :: marshalElems (e :: rest)

/-- Model of `json.Marshal(v)` for `v []DayBlock` (a non-nil slice, as `Find` leaves it):
it never fails on this type. -/
def Marshal (v : List DayBlock) : Except GoError String :=
  .ok (String.mk ('[' :: marshalElems v ++ [']']))

/-- Tokens of the JSON fragment. -/
inductive Token where
  | lbrack
  | rbrack
  | lbrace
  | rbrace
  | colon
  | comma
  | str (s : List Char)
  | num (v : Int)
  | null
  | bool (b : Bool)
deriving DecidableEq, Repr

/-- State of the parser between two tokens; `acc` holds the finished elements, `cur` the
element being filled, `k` the key just read. -/
inductive PState where
  | start
  | elemOrClose (acc : List DayBlock)
  | elem (acc : List DayBlock)
  | keyOrClose (acc : List DayBlock) (cur : DayBlock)
  | key (acc : List DayBlock) (cur : DayBlock)
  | colon (acc : List DayBlock) (cur : DayBlock) (k : List Char)
  | value (acc : List DayBlock) (cur : DayBlock) (k : List Char)
  | afterValue (acc : List DayBlock) (cur : DayBlock)
  | afterElem (acc : List DayBlock)
  | done (v : List DayBlock)
deriving DecidableEq, Repr

/-- State of the lexer between two characters; the lists hold the characters of the
pending token, last one first. -/
inductive LexState where
  | idle
  | inStr (acc : List Char)
  | inNum (neg : Bool) (digits : List Char)
  | inWord (acc : List Char)
deriving DecidableEq, Repr

/-- Error of a text that is not valid JSON. -/
def syntaxError : GoError := ⟨"invalid character in JSON input"⟩

/-- Error of a JSON value that does not fit the Go type. -/
def typeError : GoError := ⟨"json: cannot unmarshal value into Go value"⟩

/-- Error of a text that ends too early. -/
def eofError : GoError := ⟨"unexpected end of JSON input"⟩

/-- The zero value of `DayBlock`. -/
def DayBlock.zero : DayBlock := ⟨0, 0, 0⟩

/-- Key of a member, folded to lower case: Go matches keys case-insensitively. -/
def foldKey (k : List Char) : List Char := k.map Char.toLower

/-- Is `k` the name of a field of `DayBlock`. -/
def isField (k : List Char) : Bool :=
  foldKey k = ['i', 'd'] ∨ foldKey k = ['t', 'x'] ∨ foldKey k = ['l', 'e', 'n', 'g', 't', 'h']

/-- Stores the integer `v` in the field named `k`, checking the range of the field's
type; a key that names no field is ignored. -/
def setField (cur : DayBlock) (k : List Char) (v : Int) : Except GoError DayBlock :=
  if foldKey k = ['i', 'd'] then
    if isInt64 v then .ok { cur with Id := v } else .error typeError
  else if foldKey k = ['t', 'x'] then
    if isInt32 v then .ok { cur with Tx := v } else .error typeError
  else if foldKey k = ['l', 'e', 'n', 'g', 't', 'h'] then
    if isInt64 v then .ok { cur with Length := v } else .error typeError
  else .ok cur

/-- One step of the parser: the state after the token `t`. -/
def emit : PState → Token → Except GoError PState
  | .start, .lbrack => .ok (.elemOrClose [])
  | .start, .null => .ok (.done [])
  | .start, .lbrace => .error typeError
  | .start, .str _ => .error typeError
  | .start, .num _ => .error typeError
  | .start, .bool _ => .error typeError
  | .elemOrClose acc, .rbrack => .ok (.done acc)
  | .elemOrClose acc, .lbrace => .ok (.keyOrClose acc DayBlock.zero)
  | .elemOrClose acc, .null => .ok (.afterElem (acc ++ [DayBlock.zero]))
  | .elemOrClose _, .str _ => .error typeError
  | .elemOrClose _, .num _ => .error typeError
  | .elemOrClose _, .bool _ => .error typeError
  | .elem acc, .lbrace => .ok (.keyOrClose acc DayBlock.zero)
  | .elem acc, .null => .ok (.afterElem (acc ++ [DayBlock.zero]))
  | .elem _, .str _ => .error typeError
  | .elem _, .num _ => .error typeError
  | .elem _, .bool _ => .error typeError
  | .keyOrClose acc cur, .rbrace => .ok (.afterElem (acc ++ [cur]))
  | .keyOrClose acc cur, .str k => .ok (.colon acc cur k)
  | .key acc cur, .str k => .ok (.colon acc cur k)
  | .colon acc cur k, .colon => .ok (.value acc cur k)
  | .value acc cur k, .num v =>
    match setField cur k v with
    | .ok cur' => .ok (.afterValue acc cur')
    | .error e => .error e
  | .value acc cur _, .null => .ok (.afterValue acc cur)
  | .value acc cur k, .str _ => if isField k then .error typeError else .ok (.afterValue acc cur)
  | .value acc cur k, .bool _ => if isField k then .error typeError else .ok (.afterValue acc cur)
  | .afterValue acc cur, .comma => .ok (.key acc cur)
  | .afterValue acc cur, .rbrace => .ok (.afterElem (acc ++ [cur]))
  | .afterElem acc, .comma => .ok (.elem acc)
  | .afterElem acc, .rbrack => .ok (.done acc)
  | _, _ => .error syntaxError

/-- Value of a sequence of decimal digits, most significant first. -/
def natOfDigits (ds : List Char) : Nat :=
  ds.foldl (fun a c => 10 * a + (c.toNat - 48)) 0

/-- Integer literal made of the sign `neg` and the digits `digits` (last one first):
JSON wants at least one digit and no leading zero. -/
def finishNum (neg : Bool) (digits : List Char) : Except GoError Int :=
  match digits.reverse with
  | [] => .error syntaxError
  | d :: ds =>
    if d = '0' ∧ ds ≠ [] then .error syntaxError
    else if neg then .ok (-(natOfDigits (d :: ds) : Int)) else .ok (natOfDigits (d :: ds) : Int)

/-- Word made of the letters `acc` (last one first). -/
def finishWord (acc : List Char) : Except GoError Token :=
  if acc.reverse = ['n', 'u', 'l', 'l'] then .ok .null
  else if acc.reverse = ['t', 'r', 'u', 'e'] then .ok (.bool true)
  else if acc.reverse = ['f', 'a', 'l', 's', 'e'] then .ok (.bool false)
  else .error syntaxError

/-- White space of JSON. -/
def isSpace (c : Char) : Bool := c = ' ' ∨ c = '\t' ∨ c = '\n' ∨ c = '\r'

/-- The lexer reads `c` with no token pending. -/
def lexStart (ps : PState) (c : Char) : Except GoError (LexState × PState) :=
  if isSpace c then .ok (.idle, ps)
  else if c = '[' then (emit ps .lbrack).map (fun p => (.idle, p))
  else if c = ']' then (emit ps .rbrack).map (fun p => (.idle, p))
  else if c = '\x7b' then (emit ps .lbrace).map (fun p => (.idle, p))
  else if c = '\x7d' then (emit ps .rbrace).map (fun p => (.idle, p))
  else if c = ':' then (emit ps .colon).map (fun p => (.idle, p))
  else if c = ',' then (emit ps .comma).map (fun p => (.idle, p))
  else if c = '\"' then .ok (.inStr [], ps)
  else if c = '-' then .ok (.inNum true [], ps)
  else if c.isDigit then .ok (.inNum false [c], ps)
  else if c.isLower then .ok (.inWord [c], ps)
  else .error syntaxError

/-- One step of the lexer: the states after the character `c`. -/
def lexStep : LexState × PState → Char → Except GoError (LexState × PState)
  | (.idle, ps), c => lexStart ps c
  | (.inStr acc, ps), c =>
    if c = '\"' then (emit ps (.str acc.reverse)).map (fun p => (.idle, p))
    else if c = '\\' ∨ c.toNat < 32 then .error syntaxError
    else .ok (.inStr (c :: acc), ps)
  | (.inNum neg ds, ps), c =>
    if c.isDigit then .ok (.inNum neg (c :: ds), ps)
    else
      match finishNum neg ds with
      | .error e => .error e
      | .ok v =>
        match emit ps (.num v) with
        | .error e => .error e
        | .ok ps' => lexStart ps' c
  | (.inWord acc, ps), c =>
    if c.isLower then .ok (.inWord (c :: acc), ps)
    else
      match finishWord acc with
      | .error e => .error e
      | .ok t =>
        match emit ps t with
        | .error e => .error e
        | .ok ps' => lexStart ps' c

/-- Runs the lexer and the parser over a text. -/
def scan : LexState × PState → List Char → Except GoError (LexState × PState)
  | s, [] => .ok s
  | s, c :: cs =>
    match lexStep s c with
    | .ok s' => scan s' cs
    | .error e => .error e

/-- End of the text: the pending token, if any, is handed over. -/
def flush : LexState × PState → Except GoError PState
  | (.idle, ps) => .ok ps
  | (.inStr _, _) => .error eofError
  | (.inNum neg ds, ps) =>
    match finishNum neg ds with
    | .error e => .error e
    | .ok v => emit ps (.num v)
  | (.inWord acc, ps) =>
    match finishWord acc with
    | .error e => .error e
    | .ok t => emit ps t

/-- Decoder on a list of characters. -/
def unmarshalChars (cs : List Char) : Except GoError (List DayBlock) :=
  match scan (.idle, .start) cs with
  | .error e => .error e
  | .ok s =>
    match flush s with
    | .error e => .error e
    | .ok (.done v) => .ok v
    | .ok _ => .error eofError

/-- Model of `json.Unmarshal([]byte(data), &v)` for `v []DayBlock`: the decoded slice,
or the error. -/
def Unmarshal (data : String) : Except GoError (List DayBlock) := unmarshalChars data.data

/-! ## The primary store, the cache and the websocket

`db.go` reaches a PostgreSQL database through gorm, a Redis cache through `RedisParams`
and the websocket hub through `SendDashboardDataToWebsocket`. None of the three is
defined in `db.go`; `World` holds what they contain and how they answer. -/

/-- Row of the table `block_chain`, with the columns the query of `GetBlockInfoToRedis`
reads: `id` (the primary key), `data` (a byte string) and `tx`. -/
structure BlockChainRow where
  id : Int
  data : List UInt8
  tx : Int
deriving DecidableEq, Repr

instance : IsTotal BlockChainRow (fun a b => a.id ≥ b.id) :=
  ⟨fun a b => by
    show a.id ≥ b.id ∨ b.id ≥ a.id
    omega⟩

instance : IsTrans BlockChainRow (fun a b => a.id ≥ b.id) :=
  ⟨fun a b c hab hbc => by
    show a.id ≥ c.id
    have h1 : a.id ≥ b.id := hab
    have h2 : b.id ≥ c.id := hbc
    omega⟩

/-- Row of `information_schema.tables`, with the columns `HasTableOrView` reads. -/
structure TableInfo where
  table_name : String
  table_type : String
  table_schema : String
deriving DecidableEq, Repr

/-- Modelled from the spec: the channel identifier is "a fixed enumerated token identifying
the logical broadcast topic"; `ChannelBlockTpsList` is declared outside `db.go`. -/
inductive Channel where
  | ChannelBlockTpsList
  | other (name : String)
deriving DecidableEq, Repr

/-- What lies outside the process: the database (its two tables and the error every
query meets when it is unreachable), the cache (its pairs and the error every command
meets when it is unreachable), and the websocket hub (the calls received so far and the
error the hub answers). -/
structure World where
  block_chain : List BlockChainRow
  tables : List TableInfo
  dbError : Option GoError
  redis : List (String × String)
  redisError : Option GoError
  wsCalls : List (Channel × Slice ScanOutBlockTransactionRet)
  wsError : Option GoError
deriving DecidableEq, Repr

/-- The statement of `GetBlockInfoToRedis`,
`SELECT id, LENGTH(data), tx FROM block_chain ORDER BY id desc LIMIT 30`, scanned by
`Find(&trans)`: the rows by descending `id`, the first 30 of them, each as a `DayBlock`;
or the error of the database. -/
def findRecentBlocks (w : World) : Except GoError (List DayBlock) :=
  match w.dbError with
  | some e => .error e
  | none =>
    .ok (((w.block_chain.insertionSort (fun a b => a.id ≥ b.id)).take 30).map
      (fun r => { Id := r.id, Tx := r.tx, Length := r.data.length }))

/-- Error of `Row().Scan` when the statement returns no row. -/
def ErrNoRows : GoError := ⟨"sql: no rows in result set"⟩

/-- The statement of `HasTableOrView` on `information_schema.tables`, scanned by
`Row().Scan(&name)`: the `table_name` of the first row that matches, or an error (of the
database, or `ErrNoRows`). -/
def scanTableName (w : World) (names : String) : Except GoError String :=
  match w.dbError with
  | some e => .error e
  | none =>
    match (w.tables.filter (fun t =>
        decide ((t.table_type = "BASE TABLE" ∨ t.table_type = "VIEW")
          ∧ (t.table_schema ≠ "pg_catalog" ∧ t.table_schema ≠ "information_schema")
          ∧ t.table_name = names))).head? with
    | none => .error ErrNoRows
    | some t => .ok t.table_name

/-- Record `RedisParams`, declared outside `db.go`, with the two fields `db.go` fills. -/
structure RedisParams where
  Key : String
  Value : String
deriving DecidableEq, Repr

/-- Error of a `GET` on a key the cache does not hold. -/
def redisNil : GoError := ⟨"redis: nil"⟩

/-- Modelled from the spec: `RedisParams.Set` is defined outside `db.go`; the cache
boundary is "key-value `get(key) -> value|absent` and `set(key, value)`", and `write`
"replaces any prior value". A cache that is unreachable answers its error and keeps its
content. -/
def RedisParams.Set (rd : RedisParams) (w : World) : Option GoError × World :=
  match w.redisError with
  | some e => (some e, w)
  | none =>
    (none, { w with redis := (rd.Key, rd.Value) :: w.redis.filter (fun p => p.1 ≠ rd.Key) })

/-- Modelled from the spec: `RedisParams.Get` is defined outside `db.go`; it fills `Value`
with the value under `Key`, and "`read` on a never-populated cache yields `CacheMiss`". -/
def RedisParams.Get (rd : RedisParams) (w : World) : Option GoError × RedisParams :=
  match w.redisError with
  | some e => (some e, rd)
  | none =>
    match w.redis.lookup rd.Key with
    | none => (some redisNil, rd)
    | some v => (none, { rd with Value := v })

/-- Modelled from the spec: `SendDashboardDataToWebsocket` is defined outside `db.go`; the
broadcast boundary is "a publish capability accepting a channel identifier and a
serializable payload". The call is recorded and answered with the error of the hub. -/
def SendDashboardDataToWebsocket (data : Slice ScanOutBlockTransactionRet) (cmd : Channel)
    (w : World) : Option GoError × World :=
  (w.wsError, { w with wsCalls := w.wsCalls ++ [(cmd, data)] })

/-! ## Functions of `db.go` -/

/-- Function `SendTopTransactiontps(topBlockTps)`. -/
def SendTopTransactiontps (topBlockTps : Slice ScanOutBlockTransactionRet) (w : World) :
    Option GoError × World :=
  match SendDashboardDataToWebsocket topBlockTps Channel.ChannelBlockTpsList w with
  | (some err, w') => (some err, w')
  | (none, w') => (none, w')

/-- The composite literal both loops build from `dayblock[i]`; `int64(Tx)` widens an
`int32` and keeps its value. -/
def info (d : DayBlock) : ScanOutBlockTransactionRet :=
  { BlockId := d.Id, BlockSizes := d.Length, BlockTranscations := d.Tx }

/-- Loop of `SendTpsListToWebsocket` and of `GetTraninfoFromRedis`: `ret` is the slice
built so far, the list is `dayblock[i:]`. -/
def appendInfo : List DayBlock → Slice ScanOutBlockTransactionRet →
    Slice ScanOutBlockTransactionRet
  | [], ret => ret
  | d :: rest, ret => appendInfo rest (ret.append (info d))

/-- Function `SendTpsListToWebsocket(dayblock)`; `var ret []ScanOutBlockTransactionRet`
starts as the `nil` slice. -/
def SendTpsListToWebsocket (dayblock : List DayBlock) (w : World) : Option GoError × World :=
  let ret := appendInfo dayblock Slice.nil
  match SendTopTransactiontps ret w with
  | (some err, w') => (some err, w')
  | (none, w') => (none, w')

/-- Function `GetTraninfoFromRedis(limit)`, with the decoder `json.Unmarshal` of the
standard library as the parameter `unmarshal`: the slice behind the returned pointer
(`none` for the `nil` pointer) and the error. `var ret` starts as the `nil` slice. The
function reads the world and leaves it as it is; the body does not read `limit`. -/
def GetTraninfoFromRedisWith (unmarshal : String → Except GoError (List DayBlock))
    (_limit : Int) (w : World) :
    Option (Slice ScanOutBlockTransactionRet) × Option GoError :=
  let rd : RedisParams := { Key := "block-tpslist", Value := "" }
  match rd.Get w with
  | (some err, _) => (none, some err)
  | (none, rd) =>
    match unmarshal rd.Value with
    | .error err => (none, some err)
    | .ok transBlock => (some (appendInfo transBlock Slice.nil), none)

/-- Function `GetTraninfoFromRedis(limit)` with the model `Unmarshal` of the decoder. -/
def GetTraninfoFromRedis (limit : Int) (w : World) :
    Option (Slice ScanOutBlockTransactionRet) × Option GoError :=
  GetTraninfoFromRedisWith Unmarshal limit w

/-- Function `GetBlockInfoToRedis(limit)`: the returned error and the world it leaves;
`rows` is the variable `trans`. The body does not read `limit`: the bound of the query is
the literal 30. -/
def GetBlockInfoToRedis (_limit : Int) (w : World) : Option GoError × World :=
  match findRecentBlocks w with
  | .error err => (some err, w)
  | .ok rows =>
    match Marshal rows with
    | .error err => (some err, w)
    | .ok value =>
      let rd : RedisParams := { Key := "block-tpslist", Value := value }
      match rd.Set w with
      | (some err, w1) => (some err, w1)
      | (none, w1) =>
        match SendTpsListToWebsocket rows w1 with
        | (some err, w2) => (some ⟨"SendTpsListToWebsocket err:" ++ err.msg⟩, w2)
        | (none, w2) => (none, w2)

/-- Function `GetDBDealTraninfo(limit)`: the result of `GetBlockInfoToRedis(limit)`, which
it also logs when it is an error. -/
def GetDBDealTraninfo (limit : Int) (w : World) : Option GoError × World :=
  GetBlockInfoToRedis limit w

/-- Function `HasTableOrView(tr, names)`; `tr` is not used by the body. `name` starts as
the empty string and `Scan` leaves it so when it fails. -/
def HasTableOrView (w : World) (names : String) : Bool :=
  let name : String :=
    match scanTableName w names with
    | .ok n => n
    | .error _ => ""
  decide (name = names)

/-! ## Lemmas on the aggregator -/

theorem wrapInt32_add_left (a b : Int) : wrapInt32 (wrapInt32 a + b) = wrapInt32 (a + b) := by
  unfold wrapInt32
  omega

theorem wrapInt32_of_isInt32 (x : Int) (h : isInt32 x) : wrapInt32 x = x := by
  unfold wrapInt32
  unfold isInt32 at h
  omega

theorem windowSum_nil (t1 t2 : Int) : windowSum t1 t2 [] = 0 := rfl

theorem windowSum_cons (t1 t2 : Int) (b : Block) (bs : List Block) :
    windowSum t1 t2 (b :: bs) =
      (if t1 < b.Time ∧ b.Time < t2 then b.Tx else 0) + windowSum t1 t2 bs := by
  unfold windowSum inWindow
  by_cases h : t1 < b.Time ∧ b.Time < t2
  · simp [List.filter_cons, h]
  · simp [List.filter_cons, h]

theorem loop_eq_wrap (t1 t2 : Int) (bs : List Block) (dat : Int) :
    wrapInt32 (GetDayblockinfoFromRedis.loop t1 t2 bs dat)
      = wrapInt32 (dat + windowSum t1 t2 bs) := by
  induction bs generalizing dat with
  | nil => simp [GetDayblockinfoFromRedis.loop, windowSum_nil]
  | cons b rest ih =>
    rw [windowSum_cons]
    by_cases h : t1 < b.Time ∧ b.Time < t2
    · have h' : b.Time > t1 ∧ b.Time < t2 := h
      simp only [GetDayblockinfoFromRedis.loop, h', and_self, if_true, h]
      rw [ih, wrapInt32_add_left]
      congr 1
      omega
    · have h' : ¬ (b.Time > t1 ∧ b.Time < t2) := h
      simp only [GetDayblockinfoFromRedis.loop, h', if_false, h]
      rw [ih]
      congr 1
      omega

theorem loop_isInt32 (t1 t2 : Int) (bs : List Block) (dat : Int) (hd : isInt32 dat) :
    isInt32 (GetDayblockinfoFromRedis.loop t1 t2 bs dat) := by
  induction bs generalizing dat with
  | nil => simpa [GetDayblockinfoFromRedis.loop] using hd
  | cons b rest ih =>
    by_cases h : b.Time > t1 ∧ b.Time < t2
    · simp only [GetDayblockinfoFromRedis.loop, h, and_self, if_true]
      apply ih
      unfold isInt32 wrapInt32
      omega
    · simp only [GetDayblockinfoFromRedis.loop, h, if_false]
      exact ih dat hd

theorem loop_zero_eq (t1 t2 : Int) (bs : List Block) :
    GetDayblockinfoFromRedis.loop t1 t2 bs 0 = wrapInt32 (windowSum t1 t2 bs) := by
  have h1 := loop_eq_wrap t1 t2 bs 0
  have h2 := loop_isInt32 t1 t2 bs 0 (by unfold isInt32; omega)
  rw [wrapInt32_of_isInt32 _ h2] at h1
  simpa using h1

theorem windowSum_perm (t1 t2 : Int) (a b : List Block) (h : a.Perm b) :
    windowSum t1 t2 a = windowSum t1 t2 b := by
  unfold windowSum inWindow
  exact ((h.filter _).map _).sum_eq



/-! ## Lemmas on the codec -/

theorem digitChar_isDigit (d : Nat) (h : d < 10) : (digitChar d).isDigit = true := by
  interval_cases d <;> decide

theorem digitChar_toNat (d : Nat) (h : d < 10) : (digitChar d).toNat - 48 = d := by
  interval_cases d <;> decide

theorem digitChar_eq_zero (d : Nat) (h : d < 10) (h0 : digitChar d = '0') : d = 0 := by
  interval_cases d <;> first | rfl | (exact absurd h0 (by decide))

theorem lexStart_digitChar (ps : PState) (d : Nat) (h : d < 10) :
    lexStart ps (digitChar d) = .ok (.inNum false [digitChar d], ps) := by
  interval_cases d <;> rfl

theorem natOfDigits_foldl (ds : List Char) (a : Nat) :
    ds.foldl (fun a c => 10 * a + (c.toNat - 48)) a = a * 10 ^ ds.length + natOfDigits ds := by
  induction ds generalizing a with
  | nil => simp [natOfDigits]
  | cons c rest ih =>
    unfold natOfDigits
    simp only [List.foldl_cons, List.length_cons]
    rw [ih, ih (10 * 0 + (c.toNat - 48))]
    ring

theorem natOfDigits_cons (c : Char) (ds : List Char) :
    natOfDigits (c :: ds) = (c.toNat - 48) * 10 ^ ds.length + natOfDigits ds := by
  have h := natOfDigits_foldl ds (10 * 0 + (c.toNat - 48))
  unfold natOfDigits at *
  simp only [List.foldl_cons]
  rw [h]
  ring

theorem formatNatAux_value (fuel n : Nat) (acc : List Char) (h : n < fuel) :
    natOfDigits (formatNatAux fuel n acc) = n * 10 ^ acc.length + natOfDigits acc := by
  induction fuel generalizing n acc with
  | zero => omega
  | succ fuel ih =>
    unfold formatNatAux
    by_cases hn : n < 10
    · simp only [hn, if_true]
      rw [natOfDigits_cons, digitChar_toNat n hn]
    · simp only [hn, if_false]
      rw [ih (n / 10) _ (by omega), natOfDigits_cons, digitChar_toNat _ (Nat.mod_lt n (by omega))]
      simp only [List.length_cons]
      have h10 := Nat.div_add_mod n 10
      calc n / 10 * 10 ^ (acc.length + 1) + (n % 10 * 10 ^ acc.length + natOfDigits acc)
          = (10 * (n / 10) + n % 10) * 10 ^ acc.length + natOfDigits acc := by ring
        _ = n * 10 ^ acc.length + natOfDigits acc := by rw [h10]

theorem formatNatAux_head (fuel n : Nat) (acc : List Char) (h : n < fuel) :
    ∃ k ds, formatNatAux fuel n acc = digitChar k :: ds ∧ k < 10
      ∧ (∀ c ∈ ds, c.isDigit = true ∨ c ∈ acc) ∧ (k = 0 → ds = acc) := by
  induction fuel generalizing n acc with
  | zero => omega
  | succ fuel ih =>
    unfold formatNatAux
    by_cases hn : n < 10
    · simp only [hn, if_true]
      exact ⟨n, acc, rfl, hn, fun c hc => Or.inr hc, fun _ => rfl⟩
    · simp only [hn, if_false]
      obtain ⟨k, ds, heq, hk, hds, hz⟩ := ih (n / 10) (digitChar (n % 10) :: acc) (by omega)
      refine ⟨k, ds, heq, hk, ?_, ?_⟩
      · intro c hc
        rcases hds c hc with hd | hm
        · exact Or.inl hd
        · rcases List.mem_cons.mp hm with rfl | hm'
          · exact Or.inl (digitChar_isDigit _ (Nat.mod_lt n (by omega)))
          · exact Or.inr hm'
      · intro hk0
        exfalso
        subst hk0
        have hv := formatNatAux_value fuel (n / 10) (digitChar (n % 10) :: acc) (by omega)
        rw [heq, hz rfl, natOfDigits_cons, natOfDigits_cons] at hv
        have h0 : (digitChar 0).toNat - 48 = 0 := by decide
        rw [h0] at hv
        simp only [List.length_cons, zero_mul, zero_add] at hv
        have hpos : 0 < 10 ^ (acc.length + 1) := (by positivity)
        have hdiv : 1 ≤ n / 10 := by omega
        have : 10 ^ (acc.length + 1) ≤ n / 10 * 10 ^ (acc.length + 1) :=
          Nat.le_mul_of_pos_left _ (by omega)
        have hlt : (digitChar (n % 10)).toNat - 48 < 10 := by
          rw [digitChar_toNat _ (Nat.mod_lt n (by omega))]
          exact Nat.mod_lt n (by omega)
        have hb : ((digitChar (n % 10)).toNat - 48) * 10 ^ acc.length
            < 10 ^ (acc.length + 1) := by
          rw [pow_succ, Nat.mul_comm (10 ^ acc.length) 10]
          exact Nat.mul_lt_mul_of_pos_right hlt ((by positivity))
        omega

theorem formatNat_shape (n : Nat) :
    ∃ k ds, formatNat n = digitChar k :: ds ∧ k < 10
      ∧ (∀ c ∈ ds, c.isDigit = true) ∧ (k = 0 → ds = []) := by
  obtain ⟨k, ds, heq, hk, hds, hz⟩ := formatNatAux_head (n + 1) n [] (by omega)
  refine ⟨k, ds, heq, hk, ?_, hz⟩
  intro c hc
  rcases hds c hc with hd | hm
  · exact hd
  · simp at hm

theorem natOfDigits_formatNat (n : Nat) : natOfDigits (formatNat n) = n := by
  have h := formatNatAux_value (n + 1) n [] (by omega)
  simpa [natOfDigits] using h

theorem scan_append (s : LexState × PState) (a b : List Char) :
    scan s (a ++ b)
      = match scan s a with
        | .ok s' => scan s' b
        | .error e => .error e := by
  induction a generalizing s with
  | nil => rfl
  | cons c rest ih =>
    simp only [List.cons_append, scan]
    cases lexStep s c with
    | ok s' => exact ih s'
    | error e => rfl

theorem scan_ok_append {s s' : LexState × PState} {a : List Char} (b : List Char)
    (h : scan s a = .ok s') : scan s (a ++ b) = scan s' b := by
  rw [scan_append, h]

theorem scan_digits (neg : Bool) (acc ds : List Char) (ps : PState)
    (h : ∀ c ∈ ds, c.isDigit = true) :
    scan (.inNum neg acc, ps) ds = .ok (.inNum neg (ds.reverse ++ acc), ps) := by
  induction ds generalizing acc with
  | nil => rfl
  | cons c rest ih =>
    have hc : c.isDigit = true := h c (List.mem_cons_self _ _)
    simp only [scan, lexStep, hc, if_true]
    rw [ih (c :: acc) (fun x hx => h x (List.mem_cons_of_mem _ hx))]
    simp

theorem finishNum_formatNat (neg : Bool) (n : Nat) :
    finishNum neg (formatNat n).reverse = .ok (if neg then -(n : Int) else (n : Int)) := by
  obtain ⟨k, ds, heq, hk, _, hz⟩ := formatNat_shape n
  have hv := natOfDigits_formatNat n
  unfold finishNum
  rw [List.reverse_reverse, heq] at *
  have hcond : ¬ (digitChar k = '0' ∧ ds ≠ []) := by
    rintro ⟨h0, hne⟩
    exact hne (hz (digitChar_eq_zero k hk h0))
  simp only [hcond, if_false, hv]
  cases neg <;> simp

theorem scan_formatInt (ps : PState) (x : Int) :
    ∃ neg ds, scan (.idle, ps) (formatInt x) = .ok (.inNum neg ds, ps)
      ∧ finishNum neg ds = .ok x := by
  obtain ⟨k, ds, heq, hk, hds, _⟩ := formatNat_shape x.natAbs
  by_cases hx : x < 0
  · refine ⟨true, (formatNat x.natAbs).reverse, ?_, ?_⟩
    · have h1 : formatInt x = '-' :: formatNat x.natAbs := by simp [formatInt, hx]
      have h2 : lexStep (.idle, ps) '-' = .ok (.inNum true [], ps) := rfl
      rw [h1]
      simp only [scan, h2]
      rw [scan_digits true [] _ ps]
      · simp
      · rw [heq]
        intro c hc
        rcases List.mem_cons.mp hc with rfl | hc'
        · exact digitChar_isDigit k hk
        · exact hds c hc'
    · rw [finishNum_formatNat]
      simp only [if_true]
      congr 1
      omega
  · refine ⟨false, (formatNat x.natAbs).reverse, ?_, ?_⟩
    · have h1 : formatInt x = formatNat x.natAbs := by simp [formatInt, hx]
      have h2 : lexStep (.idle, ps) (digitChar k) = .ok (.inNum false [digitChar k], ps) :=
        lexStart_digitChar ps k hk
      rw [h1, heq]
      simp only [scan, h2]
      rw [scan_digits false _ ds ps hds]
      simp
    · rw [finishNum_formatNat]
      simp only [Bool.false_eq_true, if_false]
      congr 1
      omega

theorem scan_num_then (neg : Bool) (ds : List Char) (acc : List DayBlock) (cur cur' : DayBlock)
    (k : List Char) (x : Int) (c : Char) (rest : List Char) (s' : LexState × PState)
    (hf : finishNum neg ds = .ok x) (hc : c.isDigit = false)
    (hset : setField cur k x = .ok cur')
    (hstart : lexStart (.afterValue acc cur') c = .ok s') :
    scan (.inNum neg ds, .value acc cur k) (c :: rest) = scan s' rest := by
  simp [scan, lexStep, hc, hf, emit, hset, hstart]

theorem scan_open_Id (p : PState) (acc : List DayBlock)
    (hp : emit p .lbrace = .ok (.keyOrClose acc DayBlock.zero)) :
    scan (.idle, p) ['\x7b', '\"', 'I', 'd', '\"', ':']
      = .ok (.idle, .value acc DayBlock.zero ['I', 'd']) := by
  have h1 : lexStep (.idle, p) '\x7b' = .ok (.idle, .keyOrClose acc DayBlock.zero) := by
    show lexStart p '\x7b' = _
    simp [lexStart, isSpace, hp, Except.map]
  simp only [scan, h1]
  rfl

theorem scan_key_Tx (acc : List DayBlock) (cur : DayBlock) :
    scan (.idle, .key acc cur) ['\"', 'T', 'x', '\"', ':']
      = .ok (.idle, .value acc cur ['T', 'x']) := rfl

theorem scan_key_Length (acc : List DayBlock) (cur : DayBlock) :
    scan (.idle, .key acc cur) ['\"', 'L', 'e', 'n', 'g', 't', 'h', '\"', ':']
      = .ok (.idle, .value acc cur ['L', 'e', 'n', 'g', 't', 'h']) := rfl

theorem setField_Id (cur : DayBlock) (x : Int) (h : isInt64 x) :
    setField cur ['I', 'd'] x = .ok ⟨x, cur.Tx, cur.Length⟩ := by
  have hk : foldKey ['I', 'd'] = ['i', 'd'] := by decide
  simp [setField, hk, h]

theorem setField_Tx (cur : DayBlock) (x : Int) (h : isInt32 x) :
    setField cur ['T', 'x'] x = .ok ⟨cur.Id, x, cur.Length⟩ := by
  have hk : foldKey ['T', 'x'] = ['t', 'x'] := by decide
  simp [setField, hk, h]

theorem setField_Length (cur : DayBlock) (x : Int) (h : isInt64 x) :
    setField cur ['L', 'e', 'n', 'g', 't', 'h'] x = .ok ⟨cur.Id, cur.Tx, x⟩ := by
  have hk : foldKey ['L', 'e', 'n', 'g', 't', 'h'] = ['l', 'e', 'n', 'g', 't', 'h'] := by
    decide
  simp [setField, hk, h]

theorem scan_marshalDayBlock (p : PState) (acc : List DayBlock) (d : DayBlock)
    (rest : List Char) (hp : emit p .lbrace = .ok (.keyOrClose acc DayBlock.zero))
    (hd : d.WellTyped) :
    scan (.idle, p) (marshalDayBlock d ++ rest) = scan (.idle, .afterElem (acc ++ [d])) rest := by
  obtain ⟨hId, hTx, hLen⟩ := hd
  unfold marshalDayBlock
  simp only [List.append_assoc]
  rw [scan_ok_append _ (scan_open_Id p acc hp)]
  obtain ⟨n1, ds1, hs1, hf1⟩ := scan_formatInt (.value acc DayBlock.zero ['I', 'd']) d.Id
  rw [scan_ok_append _ hs1]
  simp only [List.cons_append, List.nil_append]
  rw [scan_num_then n1 ds1 acc DayBlock.zero ⟨d.Id, 0, 0⟩ ['I', 'd'] d.Id ',' _
    (.idle, .key acc ⟨d.Id, 0, 0⟩) hf1 (by decide) (setField_Id _ _ hId) rfl]
  rw [show ∀ l : List Char, '\"' :: 'T' :: 'x' :: '\"' :: ':' :: l
      = ['\"', 'T', 'x', '\"', ':'] ++ l from fun _ => rfl]
  rw [scan_ok_append _ (scan_key_Tx acc _)]
  obtain ⟨n2, ds2, hs2, hf2⟩ := scan_formatInt (.value acc ⟨d.Id, 0, 0⟩ ['T', 'x']) d.Tx
  rw [scan_ok_append _ hs2]
  rw [scan_num_then n2 ds2 acc ⟨d.Id, 0, 0⟩ ⟨d.Id, d.Tx, 0⟩ ['T', 'x'] d.Tx ',' _
    (.idle, .key acc ⟨d.Id, d.Tx, 0⟩) hf2 (by decide) (setField_Tx _ _ hTx) rfl]
  rw [show ∀ l : List Char, '\"' :: 'L' :: 'e' :: 'n' :: 'g' :: 't' :: 'h' :: '\"' :: ':' :: l
      = ['\"', 'L', 'e', 'n', 'g', 't', 'h', '\"', ':'] ++ l from fun _ => rfl]
  rw [scan_ok_append _ (scan_key_Length acc _)]
  obtain ⟨n3, ds3, hs3, hf3⟩ :=
    scan_formatInt (.value acc ⟨d.Id, d.Tx, 0⟩ ['L', 'e', 'n', 'g', 't', 'h']) d.Length
  rw [scan_ok_append _ hs3]
  rw [scan_num_then n3 ds3 acc ⟨d.Id, d.Tx, 0⟩ ⟨d.Id, d.Tx, d.Length⟩
    ['L', 'e', 'n', 'g', 't', 'h'] d.Length '\x7d' _
    (.idle, .afterElem (acc ++ [d])) hf3 (by decide) (setField_Length _ _ hLen) rfl]

theorem scan_marshalElems (p : PState) (acc : List DayBlock) (d : DayBlock) (S : List DayBlock)
    (hp : emit p .lbrace = .ok (.keyOrClose acc DayBlock.zero))
    (hS : ∀ e ∈ d :: S, e.WellTyped) :
    scan (.idle, p) (marshalElems (d :: S) ++ [']']) = .ok (.idle, .done (acc ++ d :: S)) := by
  induction S generalizing p acc d with
  | nil =>
    show scan (.idle, p) (marshalDayBlock d ++ [']']) = _
    rw [scan_marshalDayBlock p acc d _ hp (hS d (List.mem_cons_self _ _))]
    rfl
  | cons e rest ih =>
    show scan (.idle, p) ((marshalDayBlock d ++ ',' :: marshalElems (e :: rest)) ++ [']']) = _
    rw [List.append_assoc, scan_marshalDayBlock p acc d _ hp (hS d (List.mem_cons_self _ _))]
    have hstep : lexStep (.idle, .afterElem (acc ++ [d])) ',' = .ok (.idle, .elem (acc ++ [d])) :=
      rfl
    have hih := ih (.elem (acc ++ [d])) (acc ++ [d]) e rfl
      (fun x hx => hS x (List.mem_cons_of_mem _ hx))
    show scan (.idle, .afterElem (acc ++ [d])) (',' :: (marshalElems (e :: rest) ++ [']'])) = _
    simp only [scan, hstep]
    rw [hih]
    simp

theorem unmarshalChars_marshal (S : List DayBlock) (hS : ∀ d ∈ S, d.WellTyped) :
    unmarshalChars ('[' :: marshalElems S ++ [']']) = .ok S := by
  cases S with
  | nil => decide
  | cons d rest =>
    have h1 : lexStep (.idle, .start) '[' = .ok (.idle, .elemOrClose []) := rfl
    have hscan : scan (.idle, .start) ('[' :: marshalElems (d :: rest) ++ [']'])
        = .ok (.idle, .done (d :: rest)) := by
      show scan (.idle, .start) ('[' :: (marshalElems (d :: rest) ++ [']'])) = _
      simp only [scan, h1]
      exact scan_marshalElems (.elemOrClose []) [] d rest rfl hS
    unfold unmarshalChars
    rw [hscan]
    rfl

theorem Unmarshal_Marshal (S : List DayBlock) (value : String) (hS : ∀ d ∈ S, d.WellTyped)
    (hv : Marshal S = .ok value) : Unmarshal value = .ok S := by
  unfold Marshal at hv
  simp only [Except.ok.injEq] at hv
  subst hv
  exact unmarshalChars_marshal S hS

/-! ## Lemmas on the refresh and on the read path -/

theorem Slice.toList_build {α : Type} (l : List α) : (Slice.build l).toList = l := by
  cases l <;> rfl

theorem Slice.build_eq_nil {α : Type} (l : List α) : Slice.build l = Slice.nil ↔ l = [] := by
  cases l <;> simp [Slice.build]

theorem appendInfo_elems (ds : List DayBlock) (l : List ScanOutBlockTransactionRet) :
    appendInfo ds (.elems l) = .elems (l ++ ds.map info) := by
  induction ds generalizing l with
  | nil => simp [appendInfo]
  | cons d rest ih => simp [appendInfo, Slice.append, ih]

theorem appendInfo_eq (ds : List DayBlock) :
    appendInfo ds Slice.nil = Slice.build (ds.map info) := by
  cases ds with
  | nil => rfl
  | cons d rest => simp [appendInfo, Slice.append, appendInfo_elems, Slice.build]

theorem SendTopTransactiontps_eq (ret : Slice ScanOutBlockTransactionRet) (w : World) :
    SendTopTransactiontps ret w
      = SendDashboardDataToWebsocket ret Channel.ChannelBlockTpsList w := by
  unfold SendTopTransactiontps
  split <;> simp_all

theorem SendTpsListToWebsocket_eq (dayblock : List DayBlock) (w : World) :
    SendTpsListToWebsocket dayblock w
      = SendDashboardDataToWebsocket (Slice.build (dayblock.map info))
          Channel.ChannelBlockTpsList w := by
  unfold SendTpsListToWebsocket
  simp only [appendInfo_eq, SendTopTransactiontps_eq]
  split <;> simp_all

theorem findRecentBlocks_sorted (w : World) (rows : List DayBlock)
    (hid : (w.block_chain.map BlockChainRow.id).Nodup)
    (h : findRecentBlocks w = .ok rows) :
    rows.length ≤ 30 ∧ rows.Pairwise (fun a b => a.Id > b.Id) := by
  unfold findRecentBlocks at h
  cases hdb : w.dbError with
  | some e => simp [hdb] at h
  | none =>
    simp only [hdb, Except.ok.injEq] at h
    subst h
    constructor
    · simp [List.length_take]
    · rw [List.pairwise_map]
      apply List.Pairwise.sublist (List.take_sublist _ _)
      have hs : (w.block_chain.insertionSort (fun a b => a.id ≥ b.id)).Pairwise
          (fun a b => a.id ≥ b.id) := List.sorted_insertionSort _ _
      have hp := List.perm_insertionSort (fun a b : BlockChainRow => a.id ≥ b.id) w.block_chain
      have hn : ((w.block_chain.insertionSort (fun a b => a.id ≥ b.id)).map
          BlockChainRow.id).Nodup := (hp.map _).nodup_iff.mpr hid
      have hn' : (w.block_chain.insertionSort (fun a b => a.id ≥ b.id)).Pairwise
          (fun a b => a.id ≠ b.id) := by
        have := hn
        unfold List.Nodup at this
        rwa [List.pairwise_map] at this
      refine (hs.and hn').imp ?_
      intro a b hab
      show a.id > b.id
      have h1 : a.id ≥ b.id := hab.1
      have h2 : a.id ≠ b.id := hab.2
      omega

theorem GetBlockInfoToRedis_stored (limit : Int) (w : World) (rows : List DayBlock)
    (value : String) (hrows : findRecentBlocks w = .ok rows) (hval : Marshal rows = .ok value)
    (hrd : w.redisError = none) :
    GetBlockInfoToRedis limit w
      = (w.wsError.map (fun err => ⟨"SendTpsListToWebsocket err:" ++ err.msg⟩),
          { w with
            redis := ("block-tpslist", value) :: w.redis.filter (fun p => p.1 ≠ "block-tpslist")
            wsCalls :=
              w.wsCalls ++ [(Channel.ChannelBlockTpsList, Slice.build (rows.map info))] }) := by
  unfold GetBlockInfoToRedis
  simp only [hrows, hval, RedisParams.Set, hrd, SendTpsListToWebsocket_eq,
    SendDashboardDataToWebsocket]
  cases hws : w.wsError <;> simp

/-! ## Properties of the aggregator -/

/-- C1 (amended). For every sequence of blocks and every window `t1`, `t2`,
`GetDayblockinfoFromRedis` returns a nil error and the sum of `Tx` over exactly the blocks
whose `Time` is strictly greater than `t1` and strictly less than `t2`, reduced modulo
`2^32` into the range of `int32`. Hence the value is that exact sum whenever the exact sum
is an `int32`, and it is `0` when no block lies strictly inside the window. -/
theorem GetDayblockinfoFromRedis_window (t1 t2 : Int) (bs : List Block) :
    (GetDayblockinfoFromRedis t1 t2 bs).2 = none
    ∧ (GetDayblockinfoFromRedis t1 t2 bs).1 = wrapInt32 (windowSum t1 t2 bs)
    ∧ (isInt32 (windowSum t1 t2 bs) →
        (GetDayblockinfoFromRedis t1 t2 bs).1 = windowSum t1 t2 bs)
    ∧ (inWindow t1 t2 bs = [] → (GetDayblockinfoFromRedis t1 t2 bs).1 = 0) := by
  refine ⟨rfl, loop_zero_eq t1 t2 bs, ?_, ?_⟩
  · intro h
    show GetDayblockinfoFromRedis.loop t1 t2 bs 0 = _
    rw [loop_zero_eq, wrapInt32_of_isInt32 _ h]
  · intro h
    show GetDayblockinfoFromRedis.loop t1 t2 bs 0 = _
    rw [loop_zero_eq]
    unfold windowSum
    rw [h]
    rfl

/-- Witness of C1 (amended): the blocks `(tx 3, ts 10), (tx 5, ts 20), (tx 2, ts 30)` with
the window `10..30` give `5`, and a window that holds no block gives `0`. -/
theorem GetDayblockinfoFromRedis_window_witness :
    isInt32 (windowSum 10 30 [⟨10, 3⟩, ⟨20, 5⟩, ⟨30, 2⟩])
    ∧ (GetDayblockinfoFromRedis 10 30 [⟨10, 3⟩, ⟨20, 5⟩, ⟨30, 2⟩]).1
        = windowSum 10 30 [⟨10, 3⟩, ⟨20, 5⟩, ⟨30, 2⟩]
    ∧ windowSum 10 30 [⟨10, 3⟩, ⟨20, 5⟩, ⟨30, 2⟩] = 5
    ∧ inWindow 10 20 [⟨10, 3⟩, ⟨20, 5⟩] = []
    ∧ (GetDayblockinfoFromRedis 10 20 [⟨10, 3⟩, ⟨20, 5⟩]).1 = 0 :=
  ⟨by decide,
   (GetDayblockinfoFromRedis_window 10 30 [⟨10, 3⟩, ⟨20, 5⟩, ⟨30, 2⟩]).2.2.1 (by decide),
   by decide, by decide,
   (GetDayblockinfoFromRedis_window 10 20 [⟨10, 3⟩, ⟨20, 5⟩]).2.2.2 (by decide)⟩

/-- C1 as stated fails: two blocks inside the window `10..30` with the `int32` values
`Tx = 2147483647` and `Tx = 1` have the sum `2147483648`, and the function returns
`-2147483648`. -/
theorem GetDayblockinfoFromRedis_sum_counterexample :
    isInt32 2147483647 ∧ isInt32 1
    ∧ windowSum 10 30 [⟨20, 2147483647⟩, ⟨20, 1⟩] = 2147483648
    ∧ GetDayblockinfoFromRedis 10 30 [⟨20, 2147483647⟩, ⟨20, 1⟩] = (-2147483648, none)
    ∧ (GetDayblockinfoFromRedis 10 30 [⟨20, 2147483647⟩, ⟨20, 1⟩]).1
        ≠ windowSum 10 30 [⟨20, 2147483647⟩, ⟨20, 1⟩] := by
  decide

/-- C6 (amended). For every sequence of blocks whose `Tx` values are all non-negative and
every window, the value `GetDayblockinfoFromRedis` returns is non-negative provided the
exact sum of `Tx` over the blocks strictly inside the window is below `2^31`. -/
theorem GetDayblockinfoFromRedis_nonneg (t1 t2 : Int) (bs : List Block)
    (htx : ∀ b ∈ bs, 0 ≤ b.Tx) (hsum : windowSum t1 t2 bs < 2147483648) :
    0 ≤ (GetDayblockinfoFromRedis t1 t2 bs).1 := by
  have h0 : 0 ≤ windowSum t1 t2 bs := by
    unfold windowSum inWindow
    apply List.sum_nonneg
    intro x hx
    rw [List.mem_map] at hx
    obtain ⟨b, hb, rfl⟩ := hx
    exact htx b (List.mem_of_mem_filter hb)
  show 0 ≤ GetDayblockinfoFromRedis.loop t1 t2 bs 0
  rw [loop_zero_eq, wrapInt32_of_isInt32 _ ⟨by omega, hsum⟩]
  exact h0

/-- Witness of C6 (amended) on the blocks `(tx 3, ts 10), (tx 5, ts 20), (tx 2, ts 30)`. -/
theorem GetDayblockinfoFromRedis_nonneg_witness :
    0 ≤ (GetDayblockinfoFromRedis 10 30 [⟨10, 3⟩, ⟨20, 5⟩, ⟨30, 2⟩]).1 :=
  GetDayblockinfoFromRedis_nonneg 10 30 [⟨10, 3⟩, ⟨20, 5⟩, ⟨30, 2⟩] (by decide) (by decide)

/-- C6 as stated fails: two blocks inside the window with `Tx = 1073741824` each, both
non-negative `int32` values, give the negative result `-2147483648`. -/
theorem GetDayblockinfoFromRedis_nonneg_counterexample :
    (∀ b ∈ [(⟨20, 1073741824⟩ : Block), ⟨20, 1073741824⟩], 0 ≤ b.Tx ∧ isInt32 b.Tx)
    ∧ (GetDayblockinfoFromRedis 10 30 [⟨20, 1073741824⟩, ⟨20, 1073741824⟩]).1 = -2147483648
    ∧ ¬ 0 ≤ (GetDayblockinfoFromRedis 10 30 [⟨20, 1073741824⟩, ⟨20, 1073741824⟩]).1 := by
  decide

/-- C8. `GetDayblockinfoFromRedis` is order-independent: for every window and every two
block sequences that are permutations of each other the results are equal, wrap-around of
the `int32` accumulator included. -/
theorem GetDayblockinfoFromRedis_perm (t1 t2 : Int) (a b : List Block) (h : a.Perm b) :
    GetDayblockinfoFromRedis t1 t2 a = GetDayblockinfoFromRedis t1 t2 b := by
  unfold GetDayblockinfoFromRedis
  rw [loop_zero_eq, loop_zero_eq, windowSum_perm t1 t2 a b h]

/-- Witness of C8: a sequence that overflows the accumulator, and the same blocks in
another order. -/
theorem GetDayblockinfoFromRedis_perm_witness :
    [(⟨20, 2147483647⟩ : Block), ⟨25, 7⟩, ⟨30, 2⟩].Perm [⟨30, 2⟩, ⟨25, 7⟩, ⟨20, 2147483647⟩]
    ∧ GetDayblockinfoFromRedis 10 30 [⟨20, 2147483647⟩, ⟨25, 7⟩, ⟨30, 2⟩]
        = GetDayblockinfoFromRedis 10 30 [⟨30, 2⟩, ⟨25, 7⟩, ⟨20, 2147483647⟩] :=
  ⟨by decide, GetDayblockinfoFromRedis_perm 10 30 _ _ (by decide)⟩

/-! ## Properties of the refresh, of the broadcast and of the read path -/

/-- C2 (amended). In `GetBlockInfoToRedis`, for every run in which the load from the
primary store succeeds and the cache write `RedisParams.Set` fails, the function returns
the cache-write error and nothing else, and the broadcast step is not executed: the
websocket hub receives no call. -/
theorem GetBlockInfoToRedis_set_fails (limit : Int) (w : World) (e : GoError)
    (hdb : w.dbError = none) (hset : w.redisError = some e) :
    (GetBlockInfoToRedis limit w).1 = some e
    ∧ (GetBlockInfoToRedis limit w).2.wsCalls = w.wsCalls := by
  simp [GetBlockInfoToRedis, findRecentBlocks, Marshal, RedisParams.Set, hdb, hset]

/-- Witness of C2 (amended): two blocks in the store and a cache that is unreachable. -/
theorem GetBlockInfoToRedis_set_fails_witness :
    (GetBlockInfoToRedis 30
        ⟨[⟨5, [1, 2, 3], 3⟩, ⟨4, [1, 2], 1⟩], [], none, [], some ⟨"dial tcp: refused"⟩, [],
          none⟩).1 = some ⟨"dial tcp: refused"⟩
    ∧ (GetBlockInfoToRedis 30
        ⟨[⟨5, [1, 2, 3], 3⟩, ⟨4, [1, 2], 1⟩], [], none, [], some ⟨"dial tcp: refused"⟩, [],
          none⟩).2.wsCalls = [] :=
  GetBlockInfoToRedis_set_fails 30
    ⟨[⟨5, [1, 2, 3], 3⟩, ⟨4, [1, 2], 1⟩], [], none, [], some ⟨"dial tcp: refused"⟩, [], none⟩
    ⟨"dial tcp: refused"⟩ rfl rfl

/-- C2 as stated fails: with two blocks in the store and an unreachable cache the load
succeeds, the cache write fails, and the websocket hub has received no call when
`GetBlockInfoToRedis` returns. -/
theorem GetBlockInfoToRedis_broadcast_counterexample :
    findRecentBlocks
        ⟨[⟨5, [1, 2, 3], 3⟩, ⟨4, [1, 2], 1⟩], [], none, [], some ⟨"dial tcp: refused"⟩, [],
          none⟩ = .ok [⟨5, 3, 3⟩, ⟨4, 1, 2⟩]
    ∧ GetBlockInfoToRedis 30
        ⟨[⟨5, [1, 2, 3], 3⟩, ⟨4, [1, 2], 1⟩], [], none, [], some ⟨"dial tcp: refused"⟩, [],
          none⟩
      = (some ⟨"dial tcp: refused"⟩,
          ⟨[⟨5, [1, 2, 3], 3⟩, ⟨4, [1, 2], 1⟩], [], none, [], some ⟨"dial tcp: refused"⟩, [],
            none⟩) := by
  decide

/-- C3. Round trip through the cache. For every sequence `S` of `DayBlock` records (with
fields in the ranges of their Go types): if the JSON encoding of `S` is the value under
`"block-tpslist"` of a reachable cache, `GetTraninfoFromRedis` returns a nil error and the
slice that has the length of `S` and whose `i`-th element is
`(BlockId = S[i].Id, BlockSizes = S[i].Length, BlockTranscations = S[i].Tx)`; and this is
what it returns right after a refresh `GetBlockInfoToRedis` that loaded `S` and reached the
cache, whether the broadcast succeeded or not. -/
theorem cache_round_trip (S : List DayBlock) (hS : ∀ d ∈ S, d.WellTyped) :
    (∀ (limit : Int) (w : World) (value : String),
        Marshal S = .ok value → w.redisError = none →
        w.redis.lookup "block-tpslist" = some value →
        GetTraninfoFromRedis limit w
          = (some (Slice.build (S.map (fun d =>
              { BlockId := d.Id, BlockSizes := d.Length, BlockTranscations := d.Tx }))), none))
    ∧ (∀ (limit limit' : Int) (w : World),
        findRecentBlocks w = .ok S → w.redisError = none →
        GetTraninfoFromRedis limit' (GetBlockInfoToRedis limit w).2
          = (some (Slice.build (S.map (fun d =>
              { BlockId := d.Id, BlockSizes := d.Length, BlockTranscations := d.Tx }))), none))
    ∧ (Slice.build (S.map (fun d =>
          ({ BlockId := d.Id, BlockSizes := d.Length, BlockTranscations := d.Tx } :
            ScanOutBlockTransactionRet)))).toList
        = S.map (fun d =>
          { BlockId := d.Id, BlockSizes := d.Length, BlockTranscations := d.Tx }) := by
  have key : ∀ (limit : Int) (w : World) (value : String),
      Marshal S = .ok value → w.redisError = none →
      w.redis.lookup "block-tpslist" = some value →
      GetTraninfoFromRedis limit w = (some (Slice.build (S.map info)), none) := by
    intro limit w value hv hrd hlook
    have hu := Unmarshal_Marshal S value hS hv
    simp [GetTraninfoFromRedis, GetTraninfoFromRedisWith, RedisParams.Get, hrd, hlook, hu,
      appendInfo_eq]
  refine ⟨key, ?_, Slice.toList_build _⟩
  intro limit limit' w hrows hrd
  have hst := GetBlockInfoToRedis_stored limit w S _ hrows rfl hrd
  apply key limit' _ _ rfl
  · rw [hst]
    exact hrd
  · rw [hst]
    simp [List.lookup]

/-- Witness of C3: the blocks `(id 5, tx 3, len 120)` and `(id 4, tx 1, len 80)`, first as
the text a cache holds, then as the rows of the store a refresh loads. -/
theorem cache_round_trip_witness :
    GetTraninfoFromRedis 30
        ⟨[], [], none,
          [("block-tpslist",
            "[\x7b\"Id\":5,\"Tx\":3,\"Length\":120\x7d,\x7b\"Id\":4,\"Tx\":1,\"Length\":80\x7d]")],
          none, [], none⟩
      = (some (.elems [⟨5, 120, 3⟩, ⟨4, 80, 1⟩]), none)
    ∧ GetTraninfoFromRedis 30
        (GetBlockInfoToRedis 30
          ⟨[⟨5, List.replicate 120 0, 3⟩, ⟨4, List.replicate 80 0, 1⟩], [], none, [], none, [],
            none⟩).2
      = (some (.elems [⟨5, 120, 3⟩, ⟨4, 80, 1⟩]), none) :=
  ⟨(cache_round_trip [⟨5, 3, 120⟩, ⟨4, 1, 80⟩] (by decide)).1 30
      ⟨[], [], none,
        [("block-tpslist",
          "[\x7b\"Id\":5,\"Tx\":3,\"Length\":120\x7d,\x7b\"Id\":4,\"Tx\":1,\"Length\":80\x7d]")],
        none, [], none⟩
      "[\x7b\"Id\":5,\"Tx\":3,\"Length\":120\x7d,\x7b\"Id\":4,\"Tx\":1,\"Length\":80\x7d]"
      rfl rfl rfl,
   (cache_round_trip [⟨5, 3, 120⟩, ⟨4, 1, 80⟩] (by decide)).2.1 30 30
      ⟨[⟨5, List.replicate 120 0, 3⟩, ⟨4, List.replicate 80 0, 1⟩], [], none, [], none, [],
        none⟩
      rfl rfl⟩

/-- C4 (amended). For every `limit` and every content of the primary store with unique
block ids, the snapshot `GetBlockInfoToRedis(limit)` loads has at most 30 entries,
whatever `limit` is, and strictly decreasing block identifiers; when the cache is
reachable, this snapshot is what the function stores under `"block-tpslist"` and what it
hands to the websocket hub. -/
theorem GetBlockInfoToRedis_snapshot (limit : Int) (w : World)
    (hid : (w.block_chain.map BlockChainRow.id).Nodup)
    (hdb : w.dbError = none) (hrd : w.redisError = none) :
    ∃ rows : List DayBlock,
      findRecentBlocks w = .ok rows
      ∧ rows.length ≤ 30
      ∧ rows.Pairwise (fun a b => a.Id > b.Id)
      ∧ (∃ value, Marshal rows = .ok value
          ∧ (GetBlockInfoToRedis limit w).2.redis.lookup "block-tpslist" = some value)
      ∧ (GetBlockInfoToRedis limit w).2.wsCalls
          = w.wsCalls ++ [(Channel.ChannelBlockTpsList, Slice.build (rows.map info))] := by
  have hf : ∃ rows, findRecentBlocks w = .ok rows := by
    simp [findRecentBlocks, hdb]
  obtain ⟨rows, hrows⟩ := hf
  have hs := findRecentBlocks_sorted w rows hid hrows
  have hst := GetBlockInfoToRedis_stored limit w rows _ hrows rfl hrd
  refine ⟨rows, hrows, hs.1, hs.2, ⟨_, rfl, ?_⟩, ?_⟩
  · rw [hst]
    simp [List.lookup]
  · rw [hst]

/-- Witness of C4 (amended): two blocks, stored out of order, and `limit = 1`. -/
theorem GetBlockInfoToRedis_snapshot_witness :
    ∃ rows : List DayBlock,
      findRecentBlocks ⟨[⟨4, [1, 2], 1⟩, ⟨5, [1, 2, 3], 3⟩], [], none, [], none, [], none⟩
        = .ok rows
      ∧ rows.length ≤ 30
      ∧ rows.Pairwise (fun a b => a.Id > b.Id)
      ∧ (∃ value, Marshal rows = .ok value
          ∧ (GetBlockInfoToRedis 1
              ⟨[⟨4, [1, 2], 1⟩, ⟨5, [1, 2, 3], 3⟩], [], none, [], none, [], none⟩).2.redis.lookup
                "block-tpslist" = some value)
      ∧ (GetBlockInfoToRedis 1
          ⟨[⟨4, [1, 2], 1⟩, ⟨5, [1, 2, 3], 3⟩], [], none, [], none, [], none⟩).2.wsCalls
          = [] ++ [(Channel.ChannelBlockTpsList, Slice.build (rows.map info))] :=
  GetBlockInfoToRedis_snapshot 1
    ⟨[⟨4, [1, 2], 1⟩, ⟨5, [1, 2, 3], 3⟩], [], none, [], none, [], none⟩ (by decide) rfl rfl

/-- C4 as stated fails: with `limit = 1` and two blocks of distinct ids in the store, the
snapshot that is loaded, cached and broadcast has two entries. -/
theorem GetBlockInfoToRedis_limit_counterexample :
    (0 : Int) < 1
    ∧ ([(⟨4, [1, 2], 1⟩ : BlockChainRow), ⟨5, [1, 2, 3], 3⟩].map BlockChainRow.id).Nodup
    ∧ findRecentBlocks ⟨[⟨4, [1, 2], 1⟩, ⟨5, [1, 2, 3], 3⟩], [], none, [], none, [], none⟩
        = .ok [⟨5, 3, 3⟩, ⟨4, 1, 2⟩]
    ∧ GetBlockInfoToRedis 1 ⟨[⟨4, [1, 2], 1⟩, ⟨5, [1, 2, 3], 3⟩], [], none, [], none, [], none⟩
        = (none,
            ⟨[⟨4, [1, 2], 1⟩, ⟨5, [1, 2, 3], 3⟩], [], none,
              [("block-tpslist",
                "[\x7b\"Id\":5,\"Tx\":3,\"Length\":3\x7d,\x7b\"Id\":4,\"Tx\":1,\"Length\":2\x7d]")],
              none,
              [(Channel.ChannelBlockTpsList, .elems [⟨5, 3, 3⟩, ⟨4, 2, 1⟩])], none⟩)
    ∧ ¬ (([⟨5, 3, 3⟩, ⟨4, 1, 2⟩] : List DayBlock).length ≤ 1) := by
  decide

/-- C5 (amended). For every sequence of `DayBlock` records, the empty one included,
`SendTpsListToWebsocket` is exactly one call of the publish function on the channel
`ChannelBlockTpsList`: the hub has received exactly this one call more, the payload has
the length of the input, its `i`-th element is
`(BlockId = input[i].Id, BlockSizes = input[i].Length, BlockTranscations = input[i].Tx)`,
the payload is Go's `nil` slice exactly when the input is empty, and the function returns
the error (or nil) of this call. -/
theorem SendTpsListToWebsocket_publish (dayblock : List DayBlock) (w : World) :
    ∃ payload : Slice ScanOutBlockTransactionRet,
      SendTpsListToWebsocket dayblock w
        = SendDashboardDataToWebsocket payload Channel.ChannelBlockTpsList w
      ∧ (SendTpsListToWebsocket dayblock w).2.wsCalls
          = w.wsCalls ++ [(Channel.ChannelBlockTpsList, payload)]
      ∧ (SendTpsListToWebsocket dayblock w).1 = w.wsError
      ∧ payload.toList
          = dayblock.map (fun d =>
              { BlockId := d.Id, BlockSizes := d.Length, BlockTranscations := d.Tx })
      ∧ (payload = Slice.nil ↔ dayblock = []) := by
  refine ⟨Slice.build (dayblock.map info), SendTpsListToWebsocket_eq dayblock w, ?_, ?_,
    Slice.toList_build _, ?_⟩
  · rw [SendTpsListToWebsocket_eq]
    rfl
  · rw [SendTpsListToWebsocket_eq]
    rfl
  · rw [Slice.build_eq_nil]
    simp

/-- C5 as stated fails: for the empty input the payload of the publish call is Go's `nil`
slice, which `encoding/json` writes as `null`, and not an empty array. -/
theorem SendTpsListToWebsocket_empty_counterexample :
    SendTpsListToWebsocket [] ⟨[], [], none, [], none, [], none⟩
      = (none, ⟨[], [], none, [], none, [(Channel.ChannelBlockTpsList, Slice.nil)], none⟩)
    ∧ (Slice.nil : Slice ScanOutBlockTransactionRet) ≠ Slice.elems [] := by
  decide

/-- C7. In `GetBlockInfoToRedis`, for every run in which the load query against the
primary store fails, the function returns that error and leaves the world as it was: the
value under `"block-tpslist"` is unchanged and the websocket hub receives no call. -/
theorem GetBlockInfoToRedis_load_fails (limit : Int) (w : World) (e : GoError)
    (hdb : findRecentBlocks w = .error e) :
    GetBlockInfoToRedis limit w = (some e, w)
    ∧ (GetBlockInfoToRedis limit w).2.redis.lookup "block-tpslist"
        = w.redis.lookup "block-tpslist"
    ∧ (GetBlockInfoToRedis limit w).2.wsCalls = w.wsCalls := by
  have h : GetBlockInfoToRedis limit w = (some e, w) := by
    unfold GetBlockInfoToRedis
    rw [hdb]
  rw [h]
  exact ⟨rfl, rfl, rfl⟩

/-- Witness of C7: a database that is unreachable, a cache that holds an earlier snapshot
and is reachable, a hub that would accept a call. -/
theorem GetBlockInfoToRedis_load_fails_witness :
    GetBlockInfoToRedis 30
        ⟨[⟨5, [1, 2, 3], 3⟩], [], some ⟨"connection refused"⟩, [("block-tpslist", "[]")], none,
          [], none⟩
      = (some ⟨"connection refused"⟩,
          ⟨[⟨5, [1, 2, 3], 3⟩], [], some ⟨"connection refused"⟩, [("block-tpslist", "[]")], none,
            [], none⟩)
    ∧ (GetBlockInfoToRedis 30
        ⟨[⟨5, [1, 2, 3], 3⟩], [], some ⟨"connection refused"⟩, [("block-tpslist", "[]")], none,
          [], none⟩).2.redis.lookup "block-tpslist"
        = ([("block-tpslist", "[]")] : List (String × String)).lookup "block-tpslist"
    ∧ (GetBlockInfoToRedis 30
        ⟨[⟨5, [1, 2, 3], 3⟩], [], some ⟨"connection refused"⟩, [("block-tpslist", "[]")], none,
          [], none⟩).2.wsCalls = [] :=
  GetBlockInfoToRedis_load_fails 30
    ⟨[⟨5, [1, 2, 3], 3⟩], [], some ⟨"connection refused"⟩, [("block-tpslist", "[]")], none,
      [], none⟩ ⟨"connection refused"⟩ rfl

/-- C9. Whatever the decoder `json.Unmarshal` is: for every value stored under
`"block-tpslist"` that it fails to decode as a JSON array of `DayBlock`,
`GetTraninfoFromRedis` returns the decode error and a nil result, never an empty snapshot
with a nil error; and when the cache get itself fails, it returns the error of the get
and a nil result. -/
theorem GetTraninfoFromRedis_errors (unmarshal : String → Except GoError (List DayBlock))
    (limit : Int) (w : World) :
    (∀ (v : String) (e : GoError),
        w.redisError = none → w.redis.lookup "block-tpslist" = some v →
        unmarshal v = .error e →
        GetTraninfoFromRedisWith unmarshal limit w = (none, some e))
    ∧ (∀ e : GoError,
        (RedisParams.Get { Key := "block-tpslist", Value := "" } w).1 = some e →
        GetTraninfoFromRedisWith unmarshal limit w = (none, some e)) := by
  constructor
  · intro v e hrd hv hu
    simp [GetTraninfoFromRedisWith, RedisParams.Get, hrd, hv, hu]
  · intro e he
    simp only [GetTraninfoFromRedisWith]
    split
    · rename_i err rd heq
      rw [heq] at he
      simp only [Option.some.injEq] at he
      rw [he]
    · rename_i rd heq
      rw [heq] at he
      simp at he

/-- Witness of C9, with the model `Unmarshal` as the decoder: a cache that holds a text
that stops in the middle of an object, a cache that is unreachable, and a cache that was
never written. -/
theorem GetTraninfoFromRedis_errors_witness :
    GetTraninfoFromRedis 30 ⟨[], [], none, [("block-tpslist", "[\x7b\"Id\":")], none, [], none⟩
      = (none, some eofError)
    ∧ GetTraninfoFromRedis 30 ⟨[], [], none, [], some ⟨"connection refused"⟩, [], none⟩
      = (none, some ⟨"connection refused"⟩)
    ∧ GetTraninfoFromRedis 30 ⟨[], [], none, [], none, [], none⟩ = (none, some redisNil) :=
  ⟨(GetTraninfoFromRedis_errors Unmarshal 30
      ⟨[], [], none, [("block-tpslist", "[\x7b\"Id\":")], none, [], none⟩).1
      "[\x7b\"Id\":" eofError rfl (by decide) (by decide),
   (GetTraninfoFromRedis_errors Unmarshal 30
      ⟨[], [], none, [], some ⟨"connection refused"⟩, [], none⟩).2 ⟨"connection refused"⟩ rfl,
   (GetTraninfoFromRedis_errors Unmarshal 30 ⟨[], [], none, [], none, [], none⟩).2 redisNil
      (by decide)⟩

/-- C10 (amended). For every table name other than the empty string, when the existence
query itself errors, so that the scanned name is left unset, `HasTableOrView` returns
false. -/
theorem HasTableOrView_query_error (w : World) (names : String) (e : GoError)
    (hq : scanTableName w names = .error e) (hne : names ≠ "") :
    HasTableOrView w names = false := by
  unfold HasTableOrView
  rw [hq]
  simp only [decide_eq_false_iff_not]
  exact fun h => hne h.symm

/-- Witness of C10 (amended): the table `block_chain` exists and the database is
unreachable. -/
theorem HasTableOrView_query_error_witness :
    HasTableOrView
      ⟨[], [⟨"block_chain", "BASE TABLE", "public"⟩], some ⟨"connection refused"⟩, [], none, [],
        none⟩ "block_chain" = false :=
  HasTableOrView_query_error
    ⟨[], [⟨"block_chain", "BASE TABLE", "public"⟩], some ⟨"connection refused"⟩, [], none, [],
      none⟩ "block_chain" ⟨"connection refused"⟩ rfl (by decide)

/-- C10 as stated fails: for the empty name and a query that errors, `HasTableOrView`
returns true. -/
theorem HasTableOrView_empty_name_counterexample :
    scanTableName ⟨[], [], some ⟨"connection refused"⟩, [], none, [], none⟩ ""
      = .error ⟨"connection refused"⟩
    ∧ HasTableOrView ⟨[], [], some ⟨"connection refused"⟩, [], none, [], none⟩ "" = true := by
  decide

end Models
